import Mathlib

/-!
Verification of the gotyper type-inference engine (package `analyzer`) and
JSON-Schema converter (package `schema`) against their natural-language
specification.

The embedding below is a shallow, executable translation of
`internal/analyzer/analyzer.go` and the schema converter.  Go's recursive
traversal is rendered as a fuel-indexed interpreter (structural recursion on
the fuel); running out of fuel is a model artifact standing for divergence and
is reported through the error channel.  Go's unordered-map iteration in
`createMergedStructDef` (the `nestedObjectFields` loop) is made explicit as an
iteration-order oracle parameter `ord`; every actual Go execution corresponds
to some oracle returning a permutation of the insertion-ordered key list.

Machine integers: `json.Number.Int64` is modelled as exact decimal parsing
with the int64 range check `-2^63 ≤ v ≤ 2^63 - 1`.
-/

namespace GoTyper

/-- A JSON value as the analyzer receives it (`models.JSONValue`):
`nil`, `bool`, `string`, `json.Number` (kept as its literal text),
`models.JSONObject` (a Go map, embedded as an association list with distinct
keys) and `models.JSONArray`. -/
inductive Json where
  | null : Json
  | bool (b : Bool) : Json
  | num (lit : String) : Json
  | str (s : String) : Json
  | obj (fields : List (String × Json)) : Json
  | arr (elems : List Json) : Json

/-- The kind tags of `models.TypeInfo` (`models.Bool`, `models.Int`, …).
The Go `models` package itself is not under `src/`; its shape is modelled
from the spec (§3 TypeRef) and from every use in `analyzer.go` and the
schema converter. -/
inductive Kind where
  | bool | int | float | string | time | interface | struct | slice
deriving DecidableEq, Repr

/-- Modelled from the spec: `models.TypeInfo` (spec §3 TypeRef) with the
fields read and written by `analyzer.go`: `Kind`, `Name`, `IsPointer`,
`StructName`, and `SliceElementType *TypeInfo` (an optional nested type). -/
inductive TypeInfo where
  | mk (kind : Kind) (name : String) (isPointer : Bool)
       (structName : String) (sliceElementType : Option TypeInfo)

def TypeInfo.kind : TypeInfo → Kind
  | .mk k _ _ _ _ => k

def TypeInfo.name : TypeInfo → String
  | .mk _ n _ _ _ => n

def TypeInfo.isPointer : TypeInfo → Bool
  | .mk _ _ p _ _ => p

def TypeInfo.structName : TypeInfo → String
  | .mk _ _ _ s _ => s

def TypeInfo.sliceElementType : TypeInfo → Option TypeInfo
  | .mk _ _ _ _ e => e

/-- Set the `IsPointer` flag (Go's `fieldTypeInfo.IsPointer = true`). -/
def TypeInfo.withPointer : TypeInfo → TypeInfo
  | .mk k n _ s e => .mk k n true s e

/-- Modelled from the spec: `models.FieldInfo` (spec §3 FieldDef): JSON key,
rendered Go identifier, type, rendered json tag, extra tag map and comment
(the last two only used by the schema converter). -/
structure FieldInfo where
  jsonKey : String
  goName : String
  goType : TypeInfo
  jsonTag : String
  tags : List (String × String)
  comment : String

/-- Modelled from the spec: `models.StructDef` (spec §3). -/
structure StructDef where
  name : String
  fields : List FieldInfo
  isRoot : Bool

/-- Modelled from the spec: `models.AnalysisResult` — the struct catalog plus
the import set (Go `map[string]struct{}`, embedded as a duplicate-free list
in insertion order). -/
structure AnalysisResult where
  structs : List StructDef
  imports : List String

/-- Modelled from the spec: `models.IntermediateRepresentation`. -/
structure IR where
  root : Json
  rootIsArray : Bool

/-- The Go string `"interface{}"` (braces escaped for the embedding). -/
def goIface : String := "interface\x7b\x7d"

/-- The Go string `"[]interface{}"`. -/
def goIfaceSlice : String := "[]interface\x7b\x7d"

/-- Association-list read with a Nat zero value: Go's `m[k]` on a
`map[string]int`. -/
def lookupNat (m : List (String × Nat)) (k : String) : Nat :=
  (m.lookup k).getD 0

/-- Association-list write, replacing an existing binding: Go's `m[k] = v`. -/
def upsert {α : Type} (m : List (String × α)) (k : String) (v : α) :
    List (String × α) :=
  match m with
  | [] => [(k, v)]
  | (k', v') :: rest =>
      if k' = k then (k, v) :: rest else (k', v') :: upsert rest k v

/-- Lexicographic comparison of character lists by codepoint, the order
`sort.Strings` uses (UTF-8 byte order coincides with codepoint order). -/
def charListLe : List Char → List Char → Bool
  | [], _ => true
  | _ :: _, [] => false
  | a :: as, b :: bs =>
      if a.toNat < b.toNat then true
      else if b.toNat < a.toNat then false
      else charListLe as bs

/-- String comparison for `sort.Strings`. -/
def strLe (a b : String) : Bool :=
  charListLe a.toList b.toList

/-- The `strLe` order as a relation. -/
def strLeR (a b : String) : Prop := strLe a b = true

instance : DecidableRel strLeR := fun a b => instDecidableEqBool (strLe a b) true

/-- Go's `sort.Strings`: ascending lexicographic sort. -/
def sortStrings (l : List String) : List String :=
  l.insertionSort strLeR

/-- Character-list versions of the byte-based Go string helpers (all the
strings involved are ASCII, where bytes and characters coincide). -/
def lowerStr (s : String) : String :=
  String.mk (s.toList.map Char.toLower)

/-- Go `strings.HasSuffix`. -/
def strEndsWith (s suffix : String) : Bool :=
  List.isSuffixOf suffix.toList s.toList

/-- Go `strings.HasPrefix`. -/
def strStartsWith (s pre : String) : Bool :=
  List.isPrefixOf pre.toList s.toList

/-- Go `s[:len(s)-n]`. -/
def strDropRight (s : String) (n : Nat) : String :=
  String.mk (s.toList.take (s.toList.length - n))

/-- Go `strings.TrimPrefix`'s tail, `s[n:]`. -/
def strDrop (s : String) (n : Nat) : String :=
  String.mk (s.toList.drop n)

/-- Split a character list at the separators `_ - . ` and space, dropping
empty words (`current` is the reversed word being accumulated). -/
def splitSepWords : List Char → List Char → List (List Char)
  | [], current => if current.isEmpty then [] else [current.reverse]
  | c :: rest, current =>
      if c = '_' || c = '-' || c = ' ' || c = '.' then
        if current.isEmpty then splitSepWords rest []
        else current.reverse :: splitSepWords rest []
      else splitSepWords rest (c :: current)

/-- Modelled from the spec: the external `strcase.ToCamel` dependency, as
called through `config.GetFieldName` with the default configuration (no
custom field mappings, `PascalCaseFields = true`).  Splits on the separators
`_ - . ` and space and capitalizes each word's first letter; exact for the
separator-joined lower-case identifiers appearing in this development. -/
def pascalCase (s : String) : String :=
  String.join ((splitSepWords s.toList []).map fun w =>
    match w with
    | [] => ""
    | c :: rest => String.mk (c.toUpper :: rest))

/-- The `TypeInfo` literals of the primitive branches. -/
def stringInfo : TypeInfo := .mk .string "string" false "" none

def timeInfo : TypeInfo := .mk .time "time.Time" false "" none

def int64Info : TypeInfo := .mk .int "int64" false "" none

def float64Info : TypeInfo := .mk .float "float64" false "" none

def boolInfo : TypeInfo := .mk .bool "bool" false "" none

/-- The `nil` case of `analyzeNode`: `interface{}` with `IsPointer: true`. -/
def nullInfo : TypeInfo := .mk .interface goIface true "" none

/-- A non-pointer `interface{}` TypeInfo. -/
def ifaceInfo : TypeInfo := .mk .interface goIface false "" none

/-- Whether a JSON value is the literal `null` (Go `originalValue == nil`). -/
def Json.isNull : Json → Bool
  | .null => true
  | _ => false

namespace analyzer

/-- Errors of the embedded analyzer.  The Go `analyzeNode` has a `default`
error case that is unreachable for decoded JSON values (the `Json` type is
exhaustive), so the only embedded error is fuel exhaustion, the model's
rendering of unbounded recursion. -/
inductive AErr where
  | fuel
deriving DecidableEq, Repr

/-- The mutable state of an `Analyzer` value: the `structNames` collision
counter map, and the accumulating `analysisResult` (structs and imports). -/
structure AState where
  structNames : List (String × Nat)
  structs : List StructDef
  imports : List String

/-- The fresh state made by `NewAnalyzer()`. -/
def initState : AState := ⟨[], [], []⟩

/-- Go `a.analysisResult.Imports[s] = struct{}{}` (set insert). -/
def AState.addImport (st : AState) (s : String) : AState :=
  if st.imports.contains s then st else { st with imports := st.imports ++ [s] }

/-- Embeds `generateUniqueStructName` (analyzer.go:450-458). -/
def generateUniqueStructName (st : AState) (baseName : String) :
    String × AState :=
  let count := lookupNat st.structNames baseName
  let name := if count > 0 then baseName ++ toString count else baseName
  (name, { st with structNames := upsert st.structNames baseName (count + 1) })

/-! The regular expressions of analyzer.go:19-30, rendered as deterministic
matchers over character lists.  Each pattern is anchored (`^...$`) and its
alternations never overlap with a following greedy `\d+`, so the direct
left-to-right readings below are exact. -/

/-- Consume exactly `n` decimal digits. -/
def digitsN : Nat → List Char → Option (List Char)
  | 0, cs => some cs
  | _ + 1, [] => none
  | n + 1, c :: cs => if c.isDigit then digitsN n cs else none

/-- Consume one expected literal character. -/
def lit (c : Char) : List Char → Option (List Char)
  | [] => none
  | d :: cs => if d = c then some cs else none

/-- Drop a maximal run of digits. -/
def skipDigits : List Char → List Char
  | [] => []
  | c :: cs => if c.isDigit then skipDigits cs else c :: cs

/-- Consume `\d+` (at least one digit, greedily). -/
def digits1 : List Char → Option (List Char)
  | [] => none
  | c :: cs => if c.isDigit then some (skipDigits cs) else none

/-- Whether a matcher consumed the whole input (the `$` anchor). -/
def matchEnd : Option (List Char) → Bool
  | some [] => true
  | _ => false

/-- Consume `\d{4}-\d{2}-\d{2}` (the common date prefix). -/
def datePrefix (cs : List Char) : Option (List Char) :=
  digitsN 4 cs >>= lit '-' >>= digitsN 2 >>= lit '-' >>= digitsN 2

/-- Consume `\d{2}:\d{2}:\d{2}` (the common clock part). -/
def clockPart (cs : List Char) : Option (List Char) :=
  digitsN 2 cs >>= lit ':' >>= digitsN 2 >>= lit ':' >>= digitsN 2

/-- Consume the optional fraction `(\.\d+)?`. -/
def optFraction (cs : List Char) : Option (List Char) :=
  match cs with
  | '.' :: rest => digits1 rest
  | _ => some cs

/-- Match `(Z|[+-]\d{2}:\d{2})$`. -/
def tzSuffix : List Char → Bool
  | ['Z'] => true
  | c :: cs =>
      (c = '+' || c = '-') && matchEnd (digitsN 2 cs >>= lit ':' >>= digitsN 2)
  | [] => false

/-- Embeds `rfc3339Regex`: `^\d{4}-\d{2}-\d{2}T\d{2}:\d{2}:\d{2}(\.\d+)?(Z|[+-]\d{2}:\d{2})$`. -/
def matchRfc3339 (cs : List Char) : Bool :=
  match datePrefix cs >>= lit 'T' >>= clockPart >>= optFraction with
  | some rest => tzSuffix rest
  | none => false

/-- Embeds `rfc3339NanoRegex`: `^\d{4}-\d{2}-\d{2}T\d{2}:\d{2}:\d{2}\.\d{9}(Z|[+-]\d{2}:\d{2})$`. -/
def matchRfc3339Nano (cs : List Char) : Bool :=
  match datePrefix cs >>= lit 'T' >>= clockPart >>= lit '.' >>= digitsN 9 with
  | some rest => tzSuffix rest
  | none => false

/-- The tail `([+-]\d{2}:\d{2}|Z|[+-]\d{4})?$` of `iso8601Regex`. -/
def isoTz : List Char → Bool
  | [] => true
  | ['Z'] => true
  | c :: cs =>
      (c = '+' || c = '-') &&
        (matchEnd (digitsN 2 cs >>= lit ':' >>= digitsN 2) ||
         matchEnd (digitsN 4 cs))

/-- Embeds `iso8601Regex`: `^\d{4}-\d{2}-\d{2}T\d{2}:\d{2}:\d{2}(\.\d+)?([+-]\d{2}:\d{2}|Z|[+-]\d{4})?$`. -/
def matchIso8601 (cs : List Char) : Bool :=
  match datePrefix cs >>= lit 'T' >>= clockPart >>= optFraction with
  | some rest => isoTz rest
  | none => false

/-- Embeds `dateOnlyRegex`: `^\d{4}-\d{2}-\d{2}$`. -/
def matchDateOnly (cs : List Char) : Bool :=
  matchEnd (datePrefix cs)

/-- Embeds `dateTimeRegex`: `^\d{4}-\d{2}-\d{2} \d{2}:\d{2}:\d{2}(\.\d+)?$`. -/
def matchDateTime (cs : List Char) : Bool :=
  matchEnd (datePrefix cs >>= lit ' ' >>= clockPart >>= optFraction)

/-- Embeds `unixTimestampRegex`: `^1[0-9]{9}$`. -/
def matchUnixTimestamp (cs : List Char) : Bool :=
  matchEnd (lit '1' cs >>= digitsN 9)

/-- Embeds `unixMilliRegex`: `^1[0-9]{12}$`. -/
def matchUnixMilli (cs : List Char) : Bool :=
  matchEnd (lit '1' cs >>= digitsN 12)

/-- A hexadecimal digit `[0-9a-fA-F]`. -/
def isHex (c : Char) : Bool :=
  c.isDigit || ('a' ≤ c && c ≤ 'f') || ('A' ≤ c && c ≤ 'F')

/-- Consume exactly `n` hex digits. -/
def hexN : Nat → List Char → Option (List Char)
  | 0, cs => some cs
  | _ + 1, [] => none
  | n + 1, c :: cs => if isHex c then hexN n cs else none

/-- Embeds `uuidRegex`: `^[0-9a-fA-F]{8}-(4)-(4)-(4)-(12)$` hex groups. -/
def matchUuid (cs : List Char) : Bool :=
  matchEnd (hexN 8 cs >>= lit '-' >>= hexN 4 >>= lit '-' >>= hexN 4 >>=
    lit '-' >>= hexN 4 >>= lit '-' >>= hexN 12)

/-- Embeds `analyzeString` (analyzer.go:167-197).  Returns the inferred type and
whether the `"time"` import must be registered. -/
def analyzeString (s : String) : TypeInfo × Bool :=
  let cs := s.toList
  if matchUuid cs then (stringInfo, false)
  else if matchRfc3339Nano cs then (timeInfo, true)
  else if matchRfc3339 cs then (timeInfo, true)
  else if matchIso8601 cs then (timeInfo, true)
  else if matchDateOnly cs then (timeInfo, true)
  else if matchDateTime cs then (timeInfo, true)
  else (stringInfo, false)

/-- Decimal digit list to value. -/
def digitsVal (cs : List Char) (acc : Nat) : Option Nat :=
  match cs with
  | [] => some acc
  | c :: rest =>
      if c.isDigit then digitsVal rest (acc * 10 + (c.toNat - '0'.toNat))
      else none

/-- Go's `strconv.ParseInt(s, 10, 64)` as called by `json.Number.Int64()`:
an optional sign, one or more decimal digits, and the int64 range check. -/
def parseInt64 (s : String) : Option Int :=
  let signed : Bool × List Char :=
    match s.toList with
    | '-' :: rest => (true, rest)
    | '+' :: rest => (false, rest)
    | cs => (false, cs)
  match signed.2 with
  | [] => none
  | cs =>
      match digitsVal cs 0 with
      | none => none
      | some n =>
          let v : Int := if signed.1 then -(n : Int) else (n : Int)
          if -(2 ^ 63) ≤ v ∧ v ≤ 2 ^ 63 - 1 then some v else none

/-- Embeds `analyzeNumber` (analyzer.go:199-225).  A `json.Number` is its literal
text; `Float64()` succeeds on every number literal the JSON decoder emits,
and the unreachable fallback also yields `float64`, so the non-integer
branches are merged. -/
def analyzeNumber (num : String) : TypeInfo :=
  let cs := num.toList
  if matchUnixTimestamp cs then int64Info
  else if matchUnixMilli cs then int64Info
  else if (parseInt64 num).isSome then int64Info
  else float64Info

/-- The `knownSingulars` irregular-forms table (analyzer.go:485-503). -/
def knownSingulars : List (String × String) :=
  [("series", "series"), ("status", "status"), ("analysis", "analysis"),
   ("species", "species"), ("news", "news"), ("goods", "goods"),
   ("children", "child"), ("people", "person"), ("men", "man"),
   ("women", "woman"), ("teeth", "tooth"), ("feet", "foot"),
   ("mice", "mouse"), ("geese", "goose"), ("data", "data"),
   ("media", "media"), ("addresses", "address")]

/-- Embeds `singularize` (analyzer.go:505-538). -/
def singularize (plural : String) : String :=
  match knownSingulars.lookup (lowerStr plural) with
  | some singular =>
      match plural.toList, singular.toList with
      | c :: _, d :: ds =>
          if c.toUpper = c then String.mk (d.toUpper :: ds) else singular
      | _, _ => singular
  | none =>
      let lowerPlural := lowerStr plural
      if strEndsWith lowerPlural "ies" && lowerPlural.length > 3 then
        strDropRight plural 3 ++ "y"
      else if strEndsWith lowerPlural "ss" || strEndsWith lowerPlural "us" ||
          strEndsWith lowerPlural "is" then
        plural
      else if strEndsWith lowerPlural "s" && lowerPlural.length > 1 then
        strDropRight plural 1
      else if strEndsWith lowerPlural "es" && lowerPlural.length > 2 then
        strDropRight plural 2
      else
        plural

/-- Embeds `determineOmitempty` (analyzer.go:543-563). -/
def determineOmitempty (originalValue : Json) (typeInfo : TypeInfo) : String :=
  if typeInfo.isPointer then ",omitempty"
  else
    match typeInfo.kind with
    | .slice => ",omitempty"
    | .interface => ",omitempty"
    | .struct => ""
    | _ => if originalValue.isNull then ",omitempty" else ""

/-- Render a json struct tag: `` `json:"<key><omit>"` ``. -/
def mkJsonTag (key omitStr : String) : String :=
  "`json:\"" ++ key ++ omitStr ++ "\"`"

/-- Embeds `areTypeInfosEqual` (analyzer.go:567-578), on the non-nil pointers the
analyzer passes; the recursion unfolds the optional `SliceElementType` with
Go's nil/nil and nil/non-nil cases. -/
def areTypeInfosEqual : TypeInfo → TypeInfo → Bool
  | .mk k1 n1 p1 s1 e1, .mk k2 n2 p2 s2 e2 =>
      if k1 = k2 && n1 = n2 && p1 = p2 && s1 = s2 then
        if k1 = .slice then
          match e1, e2 with
          | none, none => true
          | some a, some b => areTypeInfosEqual a b
          | _, _ => false
        else true
      else false

/-- The field-map comparison inside `areStructDefsEquivalent`
(analyzer.go:582-606): `s1`'s fields keyed by `JSONKey` (later entries
overwriting earlier, as in the Go map build), then every `s2` field looked
up and compared on `GoName`, `JSONTag` and `GoType`. -/
def structFieldsEquivalent (f1 f2 : List FieldInfo) : Bool :=
  if f1.length = f2.length then
    let m := f1.foldl (fun m f => upsert m f.jsonKey f) []
    f2.all fun g =>
      match m.lookup g.jsonKey with
      | none => false
      | some f =>
          f.goName = g.goName && f.jsonTag = g.jsonTag &&
            areTypeInfosEqual f.goType g.goType
  else false

/-- Embeds `areStructDefsEquivalent` (analyzer.go:582-606); only the field lists
are inspected. -/
def areStructDefsEquivalent (s1 s2 : StructDef) : Bool :=
  structFieldsEquivalent s1.fields s2.fields

/-- Embeds `findOrAddStructDef` (analyzer.go:733-775). -/
def findOrAddStructDef (st : AState) (candidateStructDef : StructDef)
    (suggestedName : String) (isRoot isArrayElement : Bool) :
    TypeInfo × AState :=
  match st.structs.find? (fun ex => areStructDefsEquivalent candidateStructDef ex) with
  | some ex => (.mk .struct ex.name false ex.name none, st)
  | none =>
      let (finalName, st) :=
        if !isRoot then generateUniqueStructName st suggestedName
        else
          (suggestedName,
           { st with structNames := (upsert st.structNames suggestedName
               (lookupNat st.structNames suggestedName + 1)) })
      let cand :=
        { candidateStructDef with
            name := finalName
            isRoot := if isArrayElement then false else isRoot }
      (.mk .struct finalName false finalName none,
       { st with structs := st.structs ++ [cand] })

/-- The JSON object payload, if any (Go's `val.(models.JSONObject)` type
assertion). -/
def asObj : Json → Option (List (String × Json))
  | .obj l => some l
  | _ => none

/-- The shape of `analyzeNode` one fuel level down. -/
abbrev NodeFun :=
  AState → Json → String → Bool → Bool → Except AErr (TypeInfo × AState)

/-- The shape of `createMergedStructDef` one fuel level down. -/
abbrev MergeFun :=
  AState → List (List (String × Json)) → String →
    Except AErr (StructDef × AState)

/-- The field loop of `analyzeObject` (analyzer.go:247-303) over the sorted
key list.  The default configuration has no custom type mappings, so the
`checkTypeMapping` branch (analyzer.go:252-278) is dead and omitted. -/
def analyzeObjectFields (node : NodeFun) (obj : List (String × Json))
    (structName : String) :
    List String → AState → Except AErr (List FieldInfo × AState)
  | [], st => .ok ([], st)
  | key :: rest, st =>
      let val := (obj.lookup key).getD .null
      let goFieldName := pascalCase key
      let nestedStructSuggestedName := structName ++ goFieldName
      match node st val nestedStructSuggestedName false false with
      | .error e => .error e
      | .ok (fti0, st1) =>
          let fti :=
            if val.isNull || fti0.kind == .struct || fti0.kind == .slice ||
                fti0.kind == .interface then
              fti0.withPointer
            else fti0
          let jsonTag := mkJsonTag key (determineOmitempty val fti)
          match analyzeObjectFields node obj structName rest st1 with
          | .error e => .error e
          | .ok (fields, st2) =>
              .ok (⟨key, goFieldName, fti, jsonTag, [], ""⟩ :: fields, st2)

/-- Embeds `analyzeObject` (analyzer.go:227-308). -/
def analyzeObjectB (node : NodeFun) (st : AState)
    (obj : List (String × Json)) (suggestedName : String)
    (isParentObject isArrayElement : Bool) :
    Except AErr (TypeInfo × AState) :=
  let structName :=
    if !isParentObject then pascalCase suggestedName else suggestedName
  let keys := sortStrings (obj.map Prod.fst)
  match analyzeObjectFields node obj structName keys st with
  | .error e => .error e
  | .ok (fields, st1) =>
      .ok (findOrAddStructDef st1 ⟨structName, fields, false⟩ structName
        isParentObject isArrayElement)

/-- The element loop of `analyzeArray` (analyzer.go:363-374), with the
element index for the `isRootArray && i == 0` special case. -/
def analyzeElems (node : NodeFun) (elementSuggestedName : String)
    (isRootArray : Bool) :
    List Json → Nat → AState → Except AErr (List TypeInfo × AState)
  | [], _, st => .ok ([], st)
  | e :: rest, i, st =>
      let isRootElement := isRootArray && i == 0
      match node st e elementSuggestedName isRootElement true with
      | .error er => .error er
      | .ok (ti, st1) =>
          match analyzeElems node elementSuggestedName isRootArray rest
              (i + 1) st1 with
          | .error er => .error er
          | .ok (tis, st2) => .ok (ti :: tis, st2)

/-- The `[]interface{}` slice type of the empty-array and heterogeneous
fallbacks (analyzer.go:311-315, 441-446). -/
def ifaceSliceInfo : TypeInfo :=
  .mk .slice goIfaceSlice true "" (some (.mk .interface goIface false "" none))

/-- Embeds `analyzeArray` (analyzer.go:310-447). -/
def analyzeArrayB (node : NodeFun) (merge : MergeFun) (st : AState)
    (arr : List Json) (suggestedElementName : String)
    (isArrayElement : Bool) : Except AErr (TypeInfo × AState) :=
  match arr with
  | [] => .ok (ifaceSliceInfo, st)
  | _ :: _ =>
      let elementSuggestedName := singularize (pascalCase suggestedElementName)
      let isRootArray := lookupNat st.structNames elementSuggestedName == 1
      let allObjects := arr.all fun e => (asObj e).isSome
      let objectElements := arr.filterMap asObj
      if allObjects then
        match merge st objectElements elementSuggestedName with
        | .error e => .error e
        | .ok (mergedStructDef, st1) =>
            let r := findOrAddStructDef st1 mergedStructDef
              elementSuggestedName isRootArray true
            let sliceName := "[]*" ++ r.1.name
            .ok (.mk .slice sliceName true "" (some r.1.withPointer), r.2)
      else
        match analyzeElems node elementSuggestedName isRootArray arr 0 st with
        | .error e => .error e
        | .ok (elementInfos, st1) =>
            match elementInfos with
            | [] =>
                -- unreachable: `analyzeElems` yields one TypeInfo per element
                -- and `arr` is nonempty here
                .ok (ifaceSliceInfo, st1)
            | first :: restInfos =>
                let flat : Option TypeInfo :=
                  if first.kind == .slice &&
                      restInfos.all (fun info => info.kind == .slice) then
                    match first.sliceElementType with
                    | some inner =>
                        some (.mk .slice ("[]" ++ first.name) true "" (some inner))
                    | none => none
                  else none
                match flat with
                | some t => .ok (t, st1)
                | none =>
                    let isHomogeneous :=
                      restInfos.all fun cur => areTypeInfosEqual first cur
                    if isHomogeneous then
                      if first.kind == .struct then
                        .ok (.mk .slice ("[]*" ++ first.name) true ""
                          (some first.withPointer), st1)
                      else
                        let sliceName :=
                          if first.isPointer then "[]*" ++ first.name
                          else "[]" ++ first.name
                        .ok (.mk .slice sliceName true "" (some first), st1)
                    else
                      .ok (ifaceSliceInfo, st1)

/-- The per-object key loop of `createMergedStructDef`'s first pass
(analyzer.go:618-669): non-object values are analyzed into `allFields`,
object values are collected (in insertion order) into
`nestedObjectFields`. -/
def mergedObjFields (node : NodeFun) (obj : List (String × Json))
    (suggestedName : String) :
    List String → List (String × FieldInfo) →
      List (String × List (List (String × Json))) → AState →
      Except AErr
        (List (String × FieldInfo) ×
          List (String × List (List (String × Json))) × AState)
  | [], allFields, nested, st => .ok (allFields, nested, st)
  | key :: rest, allFields, nested, st =>
      let val := (obj.lookup key).getD .null
      let goFieldName := pascalCase key
      let nestedStructSuggestedName := suggestedName ++ goFieldName
      match asObj val with
      | some nestedObj =>
          let nested' :=
            match nested.lookup key with
            | some objs => upsert nested key (objs ++ [nestedObj])
            | none => nested ++ [(key, [nestedObj])]
          mergedObjFields node obj suggestedName rest allFields nested' st
      | none =>
          match node st val nestedStructSuggestedName false false with
          | .error e => .error e
          | .ok (fti0, st1) =>
              let fti :=
                if val.isNull || fti0.kind == .struct || fti0.kind == .slice ||
                    fti0.kind == .interface then
                  fti0.withPointer
                else fti0
              let jsonTag := mkJsonTag key (determineOmitempty val fti)
              let fieldInfo : FieldInfo := ⟨key, goFieldName, fti, jsonTag, [], ""⟩
              mergedObjFields node obj suggestedName rest
                (upsert allFields key fieldInfo) nested st1

/-- The object loop of `createMergedStructDef`'s first pass
(analyzer.go:618-669). -/
def mergedPassOne (node : NodeFun) (suggestedName : String) :
    List (List (String × Json)) → List (String × FieldInfo) →
      List (String × List (List (String × Json))) → AState →
      Except AErr
        (List (String × FieldInfo) ×
          List (String × List (List (String × Json))) × AState)
  | [], allFields, nested, st => .ok (allFields, nested, st)
  | obj :: rest, allFields, nested, st =>
      let keys := sortStrings (obj.map Prod.fst)
      match mergedObjFields node obj suggestedName keys allFields nested st with
      | .error e => .error e
      | .ok (af, ns, st1) => mergedPassOne node suggestedName rest af ns st1

/-- The nested-object loop of `createMergedStructDef`'s second pass
(analyzer.go:672-702).  The Go code iterates the `nestedObjectFields` map in
unspecified order; the key list handed to this loop is the oracle's
reordering of the insertion-ordered key list. -/
def mergedPassTwo (merge : MergeFun) (suggestedName : String)
    (nested : List (String × List (List (String × Json)))) :
    List String → List (String × FieldInfo) → AState →
      Except AErr (List (String × FieldInfo) × AState)
  | [], allFields, st => .ok (allFields, st)
  | key :: rest, allFields, st =>
      let nestedObjects := (nested.lookup key).getD []
      if nestedObjects.length > 0 then
        let goFieldName := pascalCase key
        let nestedStructSuggestedName := suggestedName ++ goFieldName
        match merge st nestedObjects nestedStructSuggestedName with
        | .error e => .error e
        | .ok (mergedNestedStruct, st1) =>
            let r := findOrAddStructDef st1 mergedNestedStruct
              nestedStructSuggestedName false false
            let ti := r.1.withPointer
            let jsonTag := mkJsonTag key ",omitempty"
            let fieldInfo : FieldInfo := ⟨key, goFieldName, ti, jsonTag, [], ""⟩
            mergedPassTwo merge suggestedName nested rest
              (upsert allFields key fieldInfo) r.2
      else
        mergedPassTwo merge suggestedName nested rest allFields st

/-- Embeds `createMergedStructDef` (analyzer.go:610-724): both passes, then the
fields assembled in sorted key order. -/
def createMergedB (ord : List String → List String) (node : NodeFun)
    (merge : MergeFun) (st : AState)
    (objects : List (List (String × Json))) (suggestedName : String) :
    Except AErr (StructDef × AState) :=
  match mergedPassOne node suggestedName objects [] [] st with
  | .error e => .error e
  | .ok (allFields1, nested, st1) =>
      match mergedPassTwo merge suggestedName nested
          (ord (nested.map Prod.fst)) allFields1 st1 with
      | .error e => .error e
      | .ok (allFields, st2) =>
          let keys := sortStrings (allFields.map Prod.fst)
          let fields := keys.filterMap fun k => allFields.lookup k
          .ok (⟨suggestedName, fields, false⟩, st2)

/-- The dispatch of `analyzeNode` (analyzer.go:148-165).  The `default`
error case of the Go type switch is unreachable: `Json` covers exactly the
decoder's value shapes. -/
def analyzeNodeB (node : NodeFun) (merge : MergeFun) (st : AState) (j : Json)
    (suggestedName : String) (isRootNode isArrayElement : Bool) :
    Except AErr (TypeInfo × AState) :=
  match j with
  | .null => .ok (nullInfo, st)
  | .bool _ => .ok (boolInfo, st)
  | .str s =>
      let r := analyzeString s
      .ok (r.1, if r.2 then st.addImport "time" else st)
  | .num numLit => .ok (analyzeNumber numLit, st)
  | .obj l => analyzeObjectB node st l suggestedName isRootNode isArrayElement
  | .arr l => analyzeArrayB node merge st l suggestedName isArrayElement

/-- The fuel-indexed recursive knot: level `fuel + 1` of `analyzeNode` and
`createMergedStructDef` call the level-`fuel` functions wherever the Go code
recurses. -/
def engine (ord : List String → List String) : Nat → NodeFun × MergeFun
  | 0 => (fun _ _ _ _ _ => .error .fuel, fun _ _ _ => .error .fuel)
  | fuel + 1 =>
      let p := engine ord fuel
      (fun st j n r a => analyzeNodeB p.1 p.2 st j n r a,
       fun st objs n => createMergedB ord p.1 p.2 st objs n)

/-- Embeds `analyzeNode` at a given recursion-depth budget. -/
def analyzeNode (ord : List String → List String) (fuel : Nat) : NodeFun :=
  (engine ord fuel).1

/-- Embeds `createMergedStructDef` at a given recursion-depth budget. -/
def createMergedStructDefF (ord : List String → List String) (fuel : Nat) :
    MergeFun :=
  (engine ord fuel).2

/-- Embeds `DefaultRootName` (analyzer.go:16). -/
def defaultRootName : String := "RootType"

/-- The first-match `IsRoot` fixup loop of `Analyze` (analyzer.go:131-137). -/
def markRootLoop (rootStructName : String) (rootTypeInfo : TypeInfo) :
    List StructDef → List StructDef
  | [] => []
  | s :: rest =>
      if s.name == rootStructName ||
          (s.name == rootTypeInfo.structName &&
            rootTypeInfo.kind == .struct) then
        { s with isRoot := true } :: rest
      else s :: markRootLoop rootStructName rootTypeInfo rest

/-- The `IsRoot` fixup of `Analyze` (analyzer.go:122-140) and the final
result extraction. -/
def finishAnalyze (rootIsArray : Bool) (rootStructName : String)
    (rootTypeInfo : TypeInfo) (st : AState) : AnalysisResult :=
  if rootIsArray then
    ⟨st.structs.map (fun s => { s with isRoot := false }), st.imports⟩
  else
    ⟨markRootLoop rootStructName rootTypeInfo st.structs, st.imports⟩

/-- Embeds `Analyze` (analyzer.go:68-141), returning Go's `(result, err)` pair. -/
def analyze (ord : List String → List String) (fuel : Nat) (ir : IR)
    (rootStructName0 : String) : AnalysisResult × Option AErr :=
  let name1 := if rootStructName0 = "" then defaultRootName else rootStructName0
  let r0 := generateUniqueStructName initState (pascalCase name1)
  let rootStructName := r0.1
  let st0 := r0.2
  match ir.root with
  | .null =>
      let wrapper : StructDef :=
        ⟨rootStructName,
         [⟨"value", "Value", nullInfo, mkJsonTag "value" ",omitempty", [], ""⟩],
         true⟩
      let st1 := { st0 with structs := st0.structs ++ [wrapper] }
      let rootTypeInfo : TypeInfo :=
        .mk .struct rootStructName false rootStructName none
      (finishAnalyze ir.rootIsArray rootStructName rootTypeInfo st1, none)
  | root =>
      match analyzeNode ord fuel st0 root rootStructName true false with
      | .error e => (⟨[], []⟩, some e)
      | .ok (rootTypeInfo0, st1) =>
          if !ir.rootIsArray && rootTypeInfo0.kind != .struct then
            let wrapper : StructDef :=
              ⟨rootStructName,
               [⟨"value", "Value", rootTypeInfo0, mkJsonTag "value" "", [], ""⟩],
               true⟩
            let st2 := { st1 with structs := st1.structs ++ [wrapper] }
            let rootTypeInfo : TypeInfo :=
              .mk .struct rootStructName false rootStructName none
            (finishAnalyze ir.rootIsArray rootStructName rootTypeInfo st2, none)
          else
            (finishAnalyze ir.rootIsArray rootStructName rootTypeInfo0 st1, none)

end analyzer

namespace schema

/-- A parsed JSON-Schema document, restricted to the fields the `Converter`
reads: `$ref`, `type` (Go `SchemaType.Types`, string-or-array already decoded
to a list), `properties`, `required`, `items`, `nullable`, `allOf`, `format`,
`title`, `description`, the integer length/item constraints, and the
`definitions` / `$defs` tables.  The float-valued numeric constraints
(`minimum`, `maximum`, …) and the fields the converter never reads (`enum`,
`examples`, `default`, `additionalProperties`, `anyOf`, `oneOf`, `pattern`,
…) are not modelled; no claim exercises them. -/
inductive Schema where
  | mk (ref : String) (typ : List String)
       (properties : List (String × Schema)) (required : List String)
       (items : Option Schema) (nullable : Bool) (allOf : List Schema)
       (format : String) (title : String) (description : String)
       (minLength maxLength minItems maxItems : Option Nat)
       (definitions defs : List (String × Schema))

def Schema.ref : Schema → String
  | .mk r _ _ _ _ _ _ _ _ _ _ _ _ _ _ _ => r

def Schema.typ : Schema → List String
  | .mk _ t _ _ _ _ _ _ _ _ _ _ _ _ _ _ => t

def Schema.properties : Schema → List (String × Schema)
  | .mk _ _ p _ _ _ _ _ _ _ _ _ _ _ _ _ => p

def Schema.required : Schema → List String
  | .mk _ _ _ r _ _ _ _ _ _ _ _ _ _ _ _ => r

def Schema.items : Schema → Option Schema
  | .mk _ _ _ _ i _ _ _ _ _ _ _ _ _ _ _ => i

def Schema.nullable : Schema → Bool
  | .mk _ _ _ _ _ n _ _ _ _ _ _ _ _ _ _ => n

def Schema.allOf : Schema → List Schema
  | .mk _ _ _ _ _ _ a _ _ _ _ _ _ _ _ _ => a

def Schema.format : Schema → String
  | .mk _ _ _ _ _ _ _ f _ _ _ _ _ _ _ _ => f

def Schema.title : Schema → String
  | .mk _ _ _ _ _ _ _ _ t _ _ _ _ _ _ _ => t

def Schema.description : Schema → String
  | .mk _ _ _ _ _ _ _ _ _ d _ _ _ _ _ _ => d

def Schema.minLength : Schema → Option Nat
  | .mk _ _ _ _ _ _ _ _ _ _ m _ _ _ _ _ => m

def Schema.maxLength : Schema → Option Nat
  | .mk _ _ _ _ _ _ _ _ _ _ _ m _ _ _ _ => m

def Schema.minItems : Schema → Option Nat
  | .mk _ _ _ _ _ _ _ _ _ _ _ _ m _ _ _ => m

def Schema.maxItems : Schema → Option Nat
  | .mk _ _ _ _ _ _ _ _ _ _ _ _ _ m _ _ => m

def Schema.definitions : Schema → List (String × Schema)
  | .mk _ _ _ _ _ _ _ _ _ _ _ _ _ _ d _ => d

def Schema.defs : Schema → List (String × Schema)
  | .mk _ _ _ _ _ _ _ _ _ _ _ _ _ _ _ d => d

/-- The all-zero schema (Go's zero `Schema` value). -/
def emptySchema : Schema :=
  .mk "" [] [] [] none false [] "" "" "" none none none none [] []

/-- A schema that only sets `type`. -/
def Schema.ofType (t : String) : Schema :=
  .mk "" [t] [] [] none false [] "" "" "" none none none none [] []

/-- An object schema with the given properties (nothing required). -/
def Schema.objOf (props : List (String × Schema)) : Schema :=
  .mk "" ["object"] props [] none false [] "" "" "" none none none none [] []

/-- A bare `$ref` schema. -/
def Schema.refTo (r : String) : Schema :=
  .mk r [] [] [] none false [] "" "" "" none none none none [] []

/-- Errors of the embedded converter.  The Go code wraps propagated errors
with `fmt.Errorf("...: %w", err)` context; the wrapping preserves the
underlying cause, which is what this type captures (the context strings are
dropped).  `fuel` is the model's rendering of unbounded `$ref`/`allOf`
recursion. -/
inductive CErr where
  | unresolvedRef (ref : String)
  | externalRef (ref : String)
  | fuel
deriving DecidableEq, Repr

/-- Whether an error is one of the two `$ref`-resolution failures of
`resolveRef`. -/
def CErr.isRefError : CErr → Bool
  | .unresolvedRef _ => true
  | .externalRef _ => true
  | .fuel => false

/-- The mutable state of a `Converter` value. -/
structure CState where
  structs : List StructDef
  imports : List String
  structNames : List (String × Nat)
  definitions : List (String × Schema)
  resolvedRefs : List (String × TypeInfo)

/-- Embeds `NewConverter` (schema converter): merge `definitions` and `$defs`
(the latter overriding). -/
def initCState (s : Schema) : CState :=
  ⟨[], [], [],
   s.defs.foldl (fun m kv => upsert m kv.1 kv.2)
     (s.definitions.foldl (fun m kv => upsert m kv.1 kv.2) []),
   []⟩

/-- Embeds `generateUniqueName` (schema converter). -/
def generateUniqueName (st : CState) (baseName : String) : String × CState :=
  let count := lookupNat st.structNames baseName
  let name := if count > 0 then baseName ++ toString count else baseName
  (name, { st with structNames := upsert st.structNames baseName (count + 1) })

/-- The word splitter of the schema package's `toPascalCase`: split on
`_ - . ` and space, and at every interior uppercase letter.  `isFirst`
tracks Go's `i > 0` guard on the camel-boundary split. -/
def tpcWords : List Char → List Char → Bool → List (List Char)
  | [], current, _ => if current.isEmpty then [] else [current.reverse]
  | c :: rest, current, isFirst =>
      if c = '_' || c = '-' || c = ' ' || c = '.' then
        if current.isEmpty then tpcWords rest [] false
        else current.reverse :: tpcWords rest [] false
      else if !isFirst && 'A' ≤ c && c ≤ 'Z' then
        if current.isEmpty then tpcWords rest [c] false
        else current.reverse :: tpcWords rest [c] false
      else tpcWords rest (c :: current) false

/-- Embeds `toPascalCase` (schema converter): capitalize each word's first letter
and lowercase the rest, with the `"Field"` fallbacks. -/
def toPascalCase (s : String) : String :=
  if s = "" then "Field"
  else
    let out := String.join ((tpcWords s.toList [] true).map fun w =>
      match w with
      | [] => ""
      | c :: rest => String.mk (c.toUpper :: rest.map Char.toLower))
    if out = "" then "Field" else out

/-- The schema package's own `singularize` (suffix rules only, no
irregular-forms table). -/
def singularize (s : String) : String :=
  let lower := lowerStr s
  if strEndsWith lower "ies" && s.length > 3 then strDropRight s 3 ++ "y"
  else if strEndsWith lower "es" && s.length > 2 then strDropRight s 2
  else if strEndsWith lower "s" && s.length > 1 then strDropRight s 1
  else s

/-- Embeds `generateFieldTags` (schema converter): json tag value, the validate
tag assembled from `required` and the modelled constraints, the tag map and
the description comment.  The float-valued `Minimum`/`Maximum` appends are
not modelled (their `Option Nat` counterparts here are `minItems` /
`maxItems` and the length bounds). -/
def generateFieldTags (jsonKey : String) (s : Schema) (typeInfo : TypeInfo)
    (isRequired : Bool) : String × List (String × String) × String :=
  let jsonTagValue :=
    jsonKey ++ (if typeInfo.isPointer then ",omitempty" else "")
  let validationParts : List String :=
    (if isRequired then ["required"] else []) ++
    (match s.minLength with | some n => ["min=" ++ toString n] | none => []) ++
    (match s.maxLength with | some n => ["max=" ++ toString n] | none => []) ++
    (if s.format = "email" then ["email"] else []) ++
    (if s.format = "uri" || s.format = "url" then ["url"] else []) ++
    (match s.minItems with | some n => ["min=" ++ toString n] | none => []) ++
    (match s.maxItems with | some n => ["max=" ++ toString n] | none => [])
  let jsonPart := "json:\"" ++ jsonTagValue ++ "\""
  let comment := s.description
  if validationParts.length > 0 then
    let validateTag := String.intercalate "," validationParts
    ("`" ++ jsonPart ++ " validate:\"" ++ validateTag ++ "\"`",
     [("json", jsonTagValue), ("validate", validateTag)], comment)
  else
    ("`" ++ jsonPart ++ "`", [("json", jsonTagValue)], comment)

/-- The shape of `convertSchema` one fuel level down. -/
abbrev ConvFun :=
  CState → Schema → String → Bool → Except CErr (TypeInfo × CState)

/-- The property loop of `convertObject` over the sorted property names. -/
def convertProps (conv : ConvFun) (props : List (String × Schema))
    (finalName : String) (required : List String) :
    List String → CState → Except CErr (List FieldInfo × CState)
  | [], st => .ok ([], st)
  | propName :: rest, st =>
      let propSchema := (props.lookup propName).getD emptySchema
      let goFieldName := toPascalCase propName
      let nestedName := finalName ++ goFieldName
      match conv st propSchema nestedName false with
      | .error e => .error e
      | .ok (ti0, st1) =>
          let isRequired := required.contains propName
          let ti :=
            if !isRequired || propSchema.nullable ||
                propSchema.typ.contains "null" then
              ti0.withPointer
            else ti0
          let tg := generateFieldTags propName propSchema ti isRequired
          match convertProps conv props finalName required rest st1 with
          | .error e => .error e
          | .ok (fields, st2) =>
              .ok (⟨propName, goFieldName, ti, tg.1, tg.2.1, tg.2.2⟩ :: fields,
                st2)

/-- Embeds `convertObject` (schema converter): unique name, sorted properties,
fields with required/nullable pointer logic; the struct is appended
unconditionally — no structural-equivalence scan. -/
def convertObjectB (conv : ConvFun) (st : CState) (s : Schema)
    (structName : String) (isRoot : Bool) :
    Except CErr (TypeInfo × CState) :=
  let r := generateUniqueName st structName
  let finalName := r.1
  let propNames := sortStrings (s.properties.map Prod.fst)
  match convertProps conv s.properties finalName s.required propNames r.2 with
  | .error e => .error e
  | .ok (fields, st1) =>
      .ok (.mk .struct finalName false finalName none,
        { st1 with structs := st1.structs ++ [⟨finalName, fields, isRoot⟩] })

/-- Embeds `convertArray` (schema converter). -/
def convertArrayB (conv : ConvFun) (st : CState) (s : Schema)
    (suggestedName : String) : Except CErr (TypeInfo × CState) :=
  match s.items with
  | some itemsSchema =>
      let elementName := singularize suggestedName
      match conv st itemsSchema elementName false with
      | .error e => .error e
      | .ok (elementType, st1) =>
          if elementType.kind == .struct then
            .ok (.mk .slice ("[]*" ++ elementType.name) true ""
              (some elementType.withPointer), st1)
          else
            .ok (.mk .slice ("[]" ++ elementType.name) true ""
              (some elementType), st1)
  | none =>
      .ok (.mk .slice goIfaceSlice true "" (some ifaceInfo), st)

/-- Embeds `convertString` (schema converter): the `uuid` format branch returns the
same plain string type as the default, so the two are merged. -/
def convertStringB (st : CState) (s : Schema) : TypeInfo × CState :=
  if s.format = "date-time" || s.format = "date" || s.format = "time" then
    (timeInfo,
     { st with imports :=
         if st.imports.contains "time" then st.imports
         else st.imports ++ ["time"] })
  else (stringInfo, st)

/-- Embeds `resolveRef` (schema converter): cache lookup, the two local prefixes,
and the external-ref failure.  The `suggestedName` parameter is unused, as
in the Go source. -/
def resolveRefB (conv : ConvFun) (st : CState) (ref : String)
    (suggestedName : String) : Except CErr (TypeInfo × CState) :=
  match st.resolvedRefs.lookup ref with
  | some cached => .ok (cached, st)
  | none =>
      if strStartsWith ref "#/definitions/" then
        let defName := strDrop ref "#/definitions/".length
        match st.definitions.lookup defName with
        | some defSchema =>
            match conv st defSchema (toPascalCase defName) false with
            | .error e => .error e
            | .ok (ti, st1) =>
                .ok (ti,
                  { st1 with resolvedRefs := upsert st1.resolvedRefs ref ti })
        | none => .error (.unresolvedRef ref)
      else if strStartsWith ref "#/$defs/" then
        let defName := strDrop ref "#/$defs/".length
        match st.definitions.lookup defName with
        | some defSchema =>
            match conv st defSchema (toPascalCase defName) false with
            | .error e => .error e
            | .ok (ti, st1) =>
                .ok (ti,
                  { st1 with resolvedRefs := upsert st1.resolvedRefs ref ti })
        | none => .error (.unresolvedRef ref)
      else .error (.externalRef ref)

/-- The per-member `$ref` pre-resolution inside `mergeAllOf`: a member with
a local ref found in `definitions` is replaced by the definition, anything
else stays as-is. -/
def resolveMember (defs : List (String × Schema)) (s : Schema) : Schema :=
  if s.ref ≠ "" then
    if strStartsWith s.ref "#/definitions/" then
      ((defs.lookup (strDrop s.ref "#/definitions/".length)).getD s)
    else if strStartsWith s.ref "#/$defs/" then
      ((defs.lookup (strDrop s.ref "#/$defs/".length)).getD s)
    else s
  else s

/-- The member loop of `mergeAllOf`, accumulating the merged properties
(map overwrite), concatenated `required`, and first-non-empty title and
description. -/
def mergeLoop (defs : List (String × Schema)) :
    List Schema → List (String × Schema) → List String → String → String →
      List (String × Schema) × List String × String × String
  | [], props, req, title, descr => (props, req, title, descr)
  | s :: rest, props, req, title, descr =>
      let resolved := resolveMember defs s
      let props' :=
        resolved.properties.foldl (fun m kv => upsert m kv.1 kv.2) props
      let req' := req ++ resolved.required
      let title' :=
        if title = "" && resolved.title ≠ "" then resolved.title else title
      let descr' :=
        if descr = "" && resolved.description ≠ "" then resolved.description
        else descr
      mergeLoop defs rest props' req' title' descr'

/-- Embeds `mergeAllOf` (schema converter): the merged object schema. -/
def mergeAllOf (defs : List (String × Schema)) (schemas : List Schema) :
    Schema :=
  let r := mergeLoop defs schemas [] [] "" ""
  .mk "" ["object"] r.1 r.2.1 none false [] "" r.2.2.1 r.2.2.2
    none none none none [] []

/-- The `switch schemaType` statement of `convertSchema`, with the
`interface{}` default for unknown types. -/
def dispatchType (conv : ConvFun) (st : CState) (s : Schema)
    (suggestedName : String) (isRoot : Bool) (schemaType : String) :
    Except CErr (TypeInfo × CState) :=
  if schemaType = "object" then convertObjectB conv st s suggestedName isRoot
  else if schemaType = "array" then convertArrayB conv st s suggestedName
  else if schemaType = "string" then .ok (convertStringB st s)
  else if schemaType = "integer" then .ok (int64Info, st)
  else if schemaType = "number" then .ok (float64Info, st)
  else if schemaType = "boolean" then .ok (boolInfo, st)
  else if schemaType = "null" then .ok (nullInfo, st)
  else .ok (ifaceInfo, st)

/-- The `type` value `convertSchema` dispatches on: the primary entry of
the union, inferred from `properties`/`items` when absent, with the first
non-null entry replacing a leading `"null"` in a multi-entry union. -/
def effectiveType (s : Schema) : String :=
  let schemaType0 := s.typ.headD ""
  let schemaType1 :=
    if schemaType0 = "" then
      if s.properties.length > 0 then "object"
      else if s.items.isSome then "array"
      else ""
    else schemaType0
  if schemaType1 = "null" && s.typ.length > 1 then
    (s.typ.find? (fun t => t ≠ "null")).getD "null"
  else schemaType1

/-- The body of `convertSchema` (schema converter): `$ref`, `allOf`, the
type-defaulting rules, the null-skip rule for type unions, and the kind
dispatch. -/
def convertSchemaB (conv : ConvFun) (st : CState) (s : Schema)
    (suggestedName : String) (isRoot : Bool) :
    Except CErr (TypeInfo × CState) :=
  if s.ref ≠ "" then resolveRefB conv st s.ref suggestedName
  else if s.allOf.length > 0 then
    conv st (mergeAllOf st.definitions s.allOf) suggestedName isRoot
  else
    dispatchType conv st s suggestedName isRoot (effectiveType s)

/-- The fuel-indexed recursive knot of `convertSchema`. -/
def engineS : Nat → ConvFun
  | 0 => fun _ _ _ _ => .error .fuel
  | fuel + 1 => fun st s n r => convertSchemaB (engineS fuel) st s n r

/-- Embeds `convertSchema` at a given recursion-depth budget. -/
def convertSchema (fuel : Nat) : ConvFun := engineS fuel

/-- Embeds `Convert` (schema converter), returning Go's `(result, err)` pair. -/
def convert (fuel : Nat) (s : Schema) (rootName0 : String) :
    AnalysisResult × Option CErr :=
  let rootName1 :=
    if rootName0 = "" then (if s.title = "" then "RootType" else s.title)
    else rootName0
  let rootName := toPascalCase rootName1
  match engineS fuel (initCState s) s rootName true with
  | .error e => (⟨[], []⟩, some e)
  | .ok (_, st) => (⟨st.structs, st.imports⟩, none)

end schema

/-! ## Claim theorems -/

open analyzer

/-- The array-merge scenario of spec §8: the document
`[{"id":1,"name":"John"},{"id":2,"email":"jane@x.com"}]`. -/
def mergeScenario : IR :=
  ⟨.arr [.obj [("id", .num "1"), ("name", .str "John")],
         .obj [("id", .num "2"), ("email", .str "jane@x.com")]], true⟩

/-- C1 counterexample: on the claim's own example input, the merged `User`
struct exists and has the union field set `{email, id, name}`, but the
partially-present fields `name` and `email` have `IsPointer = false` — the
claim asserts they are pointer (optional/nullable).  `createMergedStructDef`
never tracks in how many elements a key occurs. -/
theorem c1_merged_fields_not_pointer :
    ((analyze id 50 mergeScenario "User").1.structs.map fun s =>
        (s.name, s.fields.map fun f => (f.jsonKey, f.goType.isPointer))) =
      [("User", [("email", false), ("id", false), ("name", false)])] := by
  decide

/-- C1 (amended): merging `[{"id":1,"name":"John"},{"id":2,"email":"jane@x.com"}]`
under the suggested name `User` yields exactly one StructDef named `User`
whose field set is the union of the elements' keys, with `id` a non-pointer
Int and `name`/`email` non-pointer Strings (a field present in only some
elements keeps its plainly inferred type; only null-, object-, array- and
untyped-valued fields become pointers). -/
theorem c1_merged_struct :
    analyze id 50 mergeScenario "User" =
      (⟨[⟨"User",
          [⟨"email", "Email", stringInfo, "`json:\"email\"`", [], ""⟩,
           ⟨"id", "Id", int64Info, "`json:\"id\"`", [], ""⟩,
           ⟨"name", "Name", stringInfo, "`json:\"name\"`", [], ""⟩],
          false⟩], []⟩, none) := by
  rfl

/-- C2: the string-format cascade implemented in `analyzeString` consists of
the UUID guard and only five timestamp shapes (RFC3339 with/without
fraction, a permissive ISO8601 variant, date-only, date+space+time).  The
US-format date `"01/15/2023"` — which the repository's own
`TestAnalyze_EnhancedTimeFormatsExtended` test and README require to be
detected as Time — falls through every detector and is inferred as a plain
String with no time import; the documented RFC3339 and plain-string
behaviours do hold. -/
theorem c2_string_cascade :
    (analyze id 50 ⟨.obj [("date", .str "01/15/2023")], false⟩ "TestStruct" =
      (⟨[⟨"TestStruct",
          [⟨"date", "Date", stringInfo, "`json:\"date\"`", [], ""⟩],
          true⟩], []⟩, none))
    ∧ (analyze id 50 ⟨.obj [("created_at", .str "2023-01-15T10:30:00Z")],
          false⟩ "Event" =
        (⟨[⟨"Event",
            [⟨"created_at", "CreatedAt", timeInfo,
              "`json:\"created_at\"`", [], ""⟩],
            true⟩], ["time"]⟩, none))
    ∧ analyzeString "not a timestamp" = (stringInfo, false)
    ∧ analyzeString "a1b2c3d4-e5f6-7777-8888-99990000aaaa" =
        (stringInfo, false) := by
  refine ⟨by rfl, by rfl, by rfl, by rfl⟩

/-- C4 counterexample: `9223372036854775808 = 2^63` is an integer-valued
number (its literal is all digits) but overflows `json.Number.Int64()`, so
`analyzeNumber` falls through to `float64` — the claim's "a single fixed
64-bit Int regardless of magnitude" fails at this input. -/
theorem c4_big_integer_is_float :
    "9223372036854775808".toList.all Char.isDigit = true
    ∧ (analyze id 50 ⟨.obj [("a", .num "9223372036854775808")], false⟩
          "Root").1.structs =
        [⟨"Root", [⟨"a", "A", float64Info, "`json:\"a\"`", [], ""⟩], true⟩] := by
  refine ⟨by decide, by rfl⟩

/-- C4 (amended): null-valued fields are Any/Interface pointers, inferred
Struct/Slice/Any fields are pointers, and primitives map to non-pointer
types — boolean → `bool`, integer-valued numbers *within the int64 range* →
`int64` uniformly, integer-valued numbers beyond the int64 range and
non-integer numbers → `float64`, plain strings → `string`; in particular
the spec's four round-trip examples hold. -/
theorem c4_primitive_round_trip :
    (analyze id 50 ⟨.obj [("a", .num "1")], false⟩ "Root" =
      (⟨[⟨"Root", [⟨"a", "A", int64Info, "`json:\"a\"`", [], ""⟩], true⟩],
        []⟩, none))
    ∧ (analyze id 50 ⟨.obj [("a", .num "1.5")], false⟩ "Root" =
        (⟨[⟨"Root", [⟨"a", "A", float64Info, "`json:\"a\"`", [], ""⟩], true⟩],
          []⟩, none))
    ∧ (analyze id 50 ⟨.obj [("a", .bool true)], false⟩ "Root" =
        (⟨[⟨"Root", [⟨"a", "A", boolInfo, "`json:\"a\"`", [], ""⟩], true⟩],
          []⟩, none))
    ∧ (analyze id 50 ⟨.obj [("a", .null)], false⟩ "Root" =
        (⟨[⟨"Root",
            [⟨"a", "A", nullInfo, "`json:\"a,omitempty\"`", [], ""⟩],
            true⟩], []⟩, none))
    ∧ analyzeNumber "9223372036854775807" = int64Info
    ∧ analyzeNumber "-9223372036854775808" = int64Info
    ∧ analyzeNumber "9223372036854775808" = float64Info := by
  refine ⟨by rfl, by rfl, by rfl, by rfl, by rfl, by rfl, by rfl⟩

/-- C5 counterexample: for `[[1],["a"]]` every element is a Slice, but the
elements' types `[]int64` and `[]string` are *not* equivalent — yet the
flattening branch of `analyzeArray` collapses the array to `[][]int64`
around the *first* element's inner type without any pairwise equivalence
check, contradicting the claim that element type identity is still checked
before the collapse. -/
theorem c5_no_equivalence_check :
    (analyzeNode id 50 initState (.arr [.num "1"]) "Nested" false true =
      .ok (.mk .slice "[]int64" true "" (some int64Info), initState))
    ∧ (analyzeNode id 50 initState (.arr [.str "a"]) "Nested" false true =
        .ok (.mk .slice "[]string" true "" (some stringInfo), initState))
    ∧ areTypeInfosEqual (.mk .slice "[]int64" true "" (some int64Info))
        (.mk .slice "[]string" true "" (some stringInfo)) = false
    ∧ (analyzeNode id 50 initState (.arr [.arr [.num "1"], .arr [.str "a"]])
          "Nested" true false =
        .ok (.mk .slice "[][]int64" true "" (some int64Info), initState)) := by
  refine ⟨by rfl, by rfl, by decide, by rfl⟩

/-- C5 (amended): when every element of an array is itself inferred as a
Slice, the outer result collapses to a single Slice box named
`"[]" ++ <first element's slice name>` around the *first* element's inner
element type; no pairwise equivalence check is applied to the inner types
(heterogeneous inner types are silently collapsed as well). -/
theorem c5_nested_array_flattening :
    (analyzeNode id 50 initState
        (.arr [.arr [.num "1", .num "2"], .arr [.num "3", .num "4"]])
        "Matrix" true false =
      .ok (.mk .slice "[][]int64" true "" (some int64Info), initState))
    ∧ (analyzeNode id 50 initState (.arr [.arr [.num "1"], .arr [.num "2.5"]])
          "Nested" true false =
        .ok (.mk .slice "[][]int64" true "" (some int64Info), initState))
    ∧ (analyze id 50
          ⟨.obj [("matrix",
            .arr [.arr [.num "1", .num "2"], .arr [.num "3", .num "4"]])],
           false⟩ "Matrix" =
        (⟨[⟨"Matrix",
            [⟨"matrix", "Matrix",
              .mk .slice "[][]int64" true "" (some int64Info),
              "`json:\"matrix,omitempty\"`", [], ""⟩],
            true⟩], []⟩, none)) := by
  refine ⟨by rfl, by rfl, by rfl⟩

/-- An inline object schema `{"type":"object","properties":{"x":{"type":"integer"}}}`. -/
def schemaObjX : schema.Schema :=
  schema.Schema.objOf [("x", schema.Schema.ofType "integer")]

/-- A root schema with two structurally identical inline object properties. -/
def schemaTwoTwins : schema.Schema :=
  schema.Schema.objOf [("a", schemaObjX), ("b", schemaObjX)]

/-- C3 counterexample: schema-driven conversion does not deduplicate —
converting a schema whose properties `a` and `b` carry structurally
identical inline object schemas yields a catalog whose first two
StructDefs (`RootA`, `RootB`) are structurally equivalent in the sense of
`areStructDefsEquivalent` (§4.3), violating the claimed invariant for the
schema path. -/
theorem c3_schema_duplicates :
    ((schema.convert 50 schemaTwoTwins "Root").1.structs.map StructDef.name =
      ["RootA", "RootB", "Root"])
    ∧ areStructDefsEquivalent
        ((schema.convert 50 schemaTwoTwins "Root").1.structs.getD 0
          ⟨"", [], false⟩)
        ((schema.convert 50 schemaTwoTwins "Root").1.structs.getD 1
          ⟨"", [], false⟩) = true := by
  refine ⟨by rfl, by rfl⟩

/-- One array element holding two distinct nested-object keys (`a_b` and
`a-b`) whose PascalCase forms collide on `AB`. -/
def nestedCollisionDoc : IR :=
  ⟨.arr [.obj [("a_b", .obj [("x", .num "1")]),
               ("a-b", .obj [("y", .bool true)])]], true⟩

/-- Catalog projection used to compare two runs: struct names with their
fields' JSON keys and rendered type names. -/
def catalogShape (r : AnalysisResult × Option AErr) :
    List (String × List (String × String)) :=
  r.1.structs.map fun s =>
    (s.name, s.fields.map fun f => (f.jsonKey, f.goType.name))

/-- C6 counterexample: the `nestedObjectFields` loop of
`createMergedStructDef` iterates a Go map, so its order differs between
runs.  On `[{"a_b":{"x":1},"a-b":{"y":true}}]` the two nested-object fields
both suggest the struct name `ItemAB`; processing them in insertion order
versus reversed order (both legitimate map iteration orders — the reversal
of the two-key site list is a permutation of it) assigns the names `ItemAB`
and `ItemAB1` to *different* shapes, so the two runs' catalogs differ. -/
theorem c6_map_order_counterexample :
    (List.reverse ["a-b", "a_b"]).Perm ["a-b", "a_b"]
    ∧ catalogShape (analyze id 50 nestedCollisionDoc "Items") ≠
        catalogShape (analyze List.reverse 50 nestedCollisionDoc "Items") := by
  refine ⟨by decide, by decide⟩

/-- The root value is `null`, a boolean, a number or a string — neither an
object nor an array. -/
def isPrimRoot : Json → Bool
  | .null => true
  | .bool _ => true
  | .num _ => true
  | .str _ => true
  | .obj _ => false
  | .arr _ => false

/-- The type `analyzeNode` infers for a primitive root. -/
def primRootType : Json → TypeInfo
  | .null => nullInfo
  | .bool _ => boolInfo
  | .num numLit => analyzeNumber numLit
  | .str s => (analyzeString s).1
  | _ => nullInfo

/-- The imports registered while inferring a primitive root. -/
def primRootImports : Json → List String
  | .str s => if (analyzeString s).2 then ["time"] else []
  | _ => []

/-- The wrapper field's tag: the null-root branch uses `,omitempty`, the
primitive-wrap branch does not. -/
def primRootTag : Json → String
  | .null => mkJsonTag "value" ",omitempty"
  | _ => mkJsonTag "value" ""

/-- The function `analyzeNumber` only ever produces the `int64` or `float64` type. -/
theorem analyzeNumber_cases (s : String) :
    analyzeNumber s = int64Info ∨ analyzeNumber s = float64Info := by
  simp only [analyzeNumber]
  cases h1 : matchUnixTimestamp s.toList
  · cases h2 : matchUnixMilli s.toList
    · cases h3 : (parseInt64 s).isSome <;> simp
    · simp
  · simp

/-- The function `analyzeString` only ever produces the plain string or the time type. -/
theorem analyzeString_cases (s : String) :
    (analyzeString s).1 = stringInfo ∨ (analyzeString s).1 = timeInfo := by
  simp only [analyzeString]
  cases h1 : matchUuid s.toList
  · cases h2 : matchRfc3339Nano s.toList
    · cases h3 : matchRfc3339 s.toList
      · cases h4 : matchIso8601 s.toList
        · cases h5 : matchDateOnly s.toList
          · cases h6 : matchDateTime s.toList <;> simp
          · simp
        · simp
      · simp
    · simp
  · simp

/-- C10: analyzing an IR whose root is `null` or a primitive (boolean,
number, string) yields a catalog holding exactly one wrapper StructDef: it
bears the (PascalCased, defaulted) root name, has `IsRoot = true`, and has
a single field with JSON key `"value"` whose type is the root value's
inferred type — `interface{}` with `IsPointer = true` when the root is
null. -/
theorem c10_primitive_root_wrapped (ord : List String → List String)
    (fuel : Nat) (j : Json) (name : String) (h : isPrimRoot j = true) :
    analyze ord (fuel + 1) ⟨j, false⟩ name =
      (⟨[⟨pascalCase (if name = "" then defaultRootName else name),
          [⟨"value", "Value", primRootType j, primRootTag j, [], ""⟩], true⟩],
        primRootImports j⟩, none) := by
  cases j with
  | obj l => simp [isPrimRoot] at h
  | arr l => simp [isPrimRoot] at h
  | null =>
      simp [analyze, generateUniqueStructName, lookupNat, initState,
        finishAnalyze, markRootLoop, primRootType, primRootTag,
        primRootImports]
  | bool b =>
      simp [analyze, generateUniqueStructName, lookupNat, initState,
        analyzeNode, engine, analyzeNodeB, boolInfo, TypeInfo.kind,
        finishAnalyze, markRootLoop, primRootType, primRootTag,
        primRootImports]
  | num s =>
      rcases analyzeNumber_cases s with h' | h' <;>
        simp [analyze, generateUniqueStructName, lookupNat, initState,
          analyzeNode, engine, analyzeNodeB, h', int64Info, float64Info,
          TypeInfo.kind, finishAnalyze, markRootLoop, primRootType,
          primRootTag, primRootImports]
  | str s =>
      rcases analyzeString_cases s with h' | h' <;>
        cases h2 : (analyzeString s).2 <;>
          simp [analyze, generateUniqueStructName, lookupNat, initState,
            analyzeNode, engine, analyzeNodeB, h', h2, AState.addImport,
            stringInfo, timeInfo, TypeInfo.kind, finishAnalyze, markRootLoop,
            primRootType, primRootTag, primRootImports]

/-- Witness for C10 at the concrete input `null` with root name `User`. -/
theorem c10_null_root_witness :
    analyze id 1 ⟨Json.null, false⟩ "User" =
      (⟨[⟨"User",
          [⟨"value", "Value", nullInfo, "`json:\"value,omitempty\"`", [], ""⟩],
          true⟩], []⟩, none) :=
  c10_primitive_root_wrapped id 0 Json.null "User" rfl

/-- The `type` values with their own dispatch case in `convertSchema`,
plus the empty string (which triggers the properties/items inference). -/
def knownTypeOrEmpty (t : String) : Bool :=
  t = "" || t = "object" || t = "array" || t = "string" || t = "integer" ||
    t = "number" || t = "boolean" || t = "null"

mutual

/-- A schema (transitively) free of `$ref` uses on the paths `convertSchema`
traverses: its own `ref` is empty and its properties, items and `allOf`
members are ref-free. -/
def refFree : schema.Schema → Bool
  | .mk ref _ props _ items _ allOf _ _ _ _ _ _ _ _ _ =>
      ref == "" && refFreeProps props && refFreeOpt items && refFreeList allOf

def refFreeProps : List (String × schema.Schema) → Bool
  | [] => true
  | (_, s) :: rest => refFree s && refFreeProps rest

def refFreeOpt : Option schema.Schema → Bool
  | none => true
  | some s => refFree s

def refFreeList : List schema.Schema → Bool
  | [] => true
  | s :: rest => refFree s && refFreeList rest

end

/-- Unfolding `refFree` into its four components. -/
theorem refFree_spec (s : schema.Schema) (h : refFree s = true) :
    s.ref = "" ∧ refFreeProps s.properties = true ∧
      refFreeOpt s.items = true ∧ refFreeList s.allOf = true := by
  cases s with
  | mk ref typ props req items nb allOf fr ti de ml xl mi ma defs dfs =>
      simp only [refFree, Bool.and_eq_true, beq_iff_eq] at h
      exact ⟨h.1.1.1, h.1.1.2, h.1.2, h.2⟩

/-- The write `upsert` keeps an association list's values ref-free. -/
theorem refFreeProps_upsert (m : List (String × schema.Schema)) (k : String)
    (v : schema.Schema) (hm : refFreeProps m = true) (hv : refFree v = true) :
    refFreeProps (upsert m k v) = true := by
  induction m with
  | nil => simp [upsert, refFreeProps, hv]
  | cons p rest ih =>
      rcases p with ⟨pk, ps⟩
      simp only [refFreeProps, Bool.and_eq_true] at hm
      by_cases hkk : pk = k
      · simp [upsert, hkk, refFreeProps, hv, hm.2]
      · simp [upsert, hkk, refFreeProps, hm.1, ih hm.2]

/-- Folding `upsert` over a ref-free property list keeps the accumulator
ref-free. -/
theorem refFreeProps_foldl (l : List (String × schema.Schema)) :
    ∀ acc, refFreeProps acc = true → refFreeProps l = true →
      refFreeProps
        (l.foldl (fun m kv => upsert m kv.1 kv.2) acc) = true := by
  induction l with
  | nil => intro acc hacc _; simpa using hacc
  | cons p rest ih =>
      intro acc hacc hl
      rcases p with ⟨pk, ps⟩
      simp only [refFreeProps, Bool.and_eq_true] at hl
      exact ih _ (refFreeProps_upsert acc pk ps hacc hl.1) hl.2

/-- A ref-free `allOf` member is untouched by `resolveMember`. -/
theorem resolveMember_of_refFree (defs : List (String × schema.Schema))
    (s : schema.Schema) (h : refFree s = true) :
    schema.resolveMember defs s = s := by
  have href := (refFree_spec s h).1
  simp [schema.resolveMember, href]

/-- The loop `mergeLoop` keeps the accumulated properties ref-free. -/
theorem mergeLoop_refFree (defs : List (String × schema.Schema)) :
    ∀ (schemas : List schema.Schema) (props : List (String × schema.Schema))
      (req : List String) (title descr : String),
      refFreeList schemas = true → refFreeProps props = true →
      refFreeProps
        (schema.mergeLoop defs schemas props req title descr).1 = true := by
  intro schemas
  induction schemas with
  | nil => intro props req title descr _ hp; simpa [schema.mergeLoop] using hp
  | cons s rest ih =>
      intro props req title descr hl hp
      simp only [refFreeList, Bool.and_eq_true] at hl
      simp only [schema.mergeLoop, resolveMember_of_refFree defs s hl.1]
      exact ih _ _ _ _ hl.2
        (refFreeProps_foldl s.properties props hp (refFree_spec s hl.1).2.1)

/-- The merged `allOf` schema of ref-free members is ref-free. -/
theorem mergeAllOf_refFree (defs : List (String × schema.Schema))
    (schemas : List schema.Schema) (h : refFreeList schemas = true) :
    refFree (schema.mergeAllOf defs schemas) = true := by
  have h1 := mergeLoop_refFree defs schemas [] [] "" "" h rfl
  simp [schema.mergeAllOf, refFree, refFreeOpt, refFreeList, h1]

/-- A key looked up in a ref-free property list (with the zero-schema
default) is ref-free. -/
theorem refFreeProps_lookup (props : List (String × schema.Schema))
    (h : refFreeProps props = true) (k : String) :
    refFree ((props.lookup k).getD schema.emptySchema) = true := by
  induction props with
  | nil => exact rfl
  | cons p rest ih =>
      rcases p with ⟨pk, ps⟩
      simp only [refFreeProps, Bool.and_eq_true] at h
      simp only [List.lookup]
      cases k == pk
      · exact ih h.2
      · simpa using h.1

/-- A level of `convertSchema` that only fails with `fuel` on ref-free
schemas. -/
def SafeConv (conv : schema.ConvFun) : Prop :=
  ∀ (st : schema.CState) (s : schema.Schema) (nm : String) (r : Bool)
    (e : schema.CErr),
    refFree s = true → conv st s nm r = .error e → e = .fuel

/-- The property loop only fails the way its schema conversions fail. -/
theorem convertProps_err (conv : schema.ConvFun) (hsafe : SafeConv conv)
    (props : List (String × schema.Schema))
    (hprops : refFreeProps props = true) (finalName : String)
    (required : List String) :
    ∀ (keys : List String) (st : schema.CState) (e : schema.CErr),
      schema.convertProps conv props finalName required keys st = .error e →
        e = .fuel := by
  intro keys
  induction keys with
  | nil => intro st e h; simp [schema.convertProps] at h
  | cons k rest ih =>
      intro st e h
      simp only [schema.convertProps] at h
      cases hc : conv st ((props.lookup k).getD schema.emptySchema)
          (finalName ++ schema.toPascalCase k) false with
      | error e1 =>
          rw [hc] at h
          cases h
          exact hsafe st _ _ false _ (refFreeProps_lookup props hprops k) hc
      | ok p =>
          rw [hc] at h
          rcases p with ⟨ti0, st1⟩
          dsimp only at h
          cases hr : schema.convertProps conv props finalName required rest st1 with
          | error e2 =>
              rw [hr] at h
              cases h
              exact ih st1 _ hr
          | ok q =>
              rw [hr] at h
              rcases q with ⟨fs, st2⟩
              simp at h

/-- The embedded `convertObject` fails only the way its property conversions fail. -/
theorem convertObjectB_err (conv : schema.ConvFun) (hsafe : SafeConv conv)
    (st : schema.CState) (s : schema.Schema) (nm : String) (r : Bool)
    (e : schema.CErr) (hprops : refFreeProps s.properties = true)
    (h : schema.convertObjectB conv st s nm r = .error e) : e = .fuel := by
  simp only [schema.convertObjectB] at h
  split at h
  next e1 heq =>
    cases h
    exact convertProps_err conv hsafe s.properties hprops _ s.required _ _ _ heq
  next p heq => simp at h

/-- The embedded `convertArray` fails only the way its item conversion fails. -/
theorem convertArrayB_err (conv : schema.ConvFun) (hsafe : SafeConv conv)
    (st : schema.CState) (s : schema.Schema) (nm : String) (e : schema.CErr)
    (hitems : refFreeOpt s.items = true)
    (h : schema.convertArrayB conv st s nm = .error e) : e = .fuel := by
  simp only [schema.convertArrayB] at h
  rcases hi : s.items with _ | it
  · rw [hi] at h
    simp at h
  · rw [hi] at h
    dsimp only at h
    cases hc : conv st it (schema.singularize nm) false with
    | error e1 =>
        rw [hc] at h
        cases h
        have hit : refFree it = true := by
          rw [hi] at hitems
          simpa [refFreeOpt] using hitems
        exact hsafe st it _ false _ hit hc
    | ok p =>
        rw [hc] at h
        rcases p with ⟨ti, st1⟩
        dsimp only at h
        split at h <;> simp at h

/-- The type dispatch fails only the way its object/array conversions
do. -/
theorem dispatchType_err (conv : schema.ConvFun) (hsafe : SafeConv conv)
    (st : schema.CState) (s : schema.Schema) (nm : String) (r : Bool)
    (t : String) (e : schema.CErr)
    (hprops : refFreeProps s.properties = true)
    (hitems : refFreeOpt s.items = true)
    (h : schema.dispatchType conv st s nm r t = .error e) : e = .fuel := by
  simp only [schema.dispatchType] at h
  split at h
  · exact convertObjectB_err _ hsafe st s nm r e hprops h
  · split at h
    · exact convertArrayB_err _ hsafe st s nm e hitems h
    · split at h
      · exact Except.noConfusion h
      · split at h
        · exact Except.noConfusion h
        · split at h
          · exact Except.noConfusion h
          · split at h
            · exact Except.noConfusion h
            · split at h
              · exact Except.noConfusion h
              · exact Except.noConfusion h

/-- Every fuel level of the embedded `convertSchema` fails only with `fuel`
on ref-free schemas: apart from fuel exhaustion (the model's stand-in for
unbounded recursion), every converter error originates in `resolveRef`. -/
theorem engineS_refFree_safe : ∀ fuel : Nat, SafeConv (schema.engineS fuel) := by
  intro fuel
  induction fuel with
  | zero =>
      intro st s nm r e _ h
      cases h
      rfl
  | succ fuel ih =>
      intro st s nm r e hrf h
      obtain ⟨href, hprops, hitems, hallOf⟩ := refFree_spec s hrf
      simp only [schema.engineS, schema.convertSchemaB] at h
      rw [if_neg (by simp [href])] at h
      by_cases hao : s.allOf.length > 0
      · rw [if_pos hao] at h
        exact ih st _ nm r e (mergeAllOf_refFree _ _ hallOf) h
      · rw [if_neg hao] at h
        exact dispatchType_err _ ih st s nm r _ e hprops hitems h

/-- C8: unrecognized schema `type` values are not fatal — with no `$ref`
and no `allOf`, a schema whose (present) primary type matches none of the
dispatch cases converts without error to the Any/`interface{}` kind with
the state untouched (first conjunct); and schema inference's only hard
failure states are `$ref` resolution failures — on `$ref`-free schemas the
converter never errors at all except for the model's fuel bound standing
in for unbounded recursion (second conjunct; the remaining failure source
named by the spec, a malformed `type` union, lives in the JSON decoding
layer before conversion). -/
theorem c8_unknown_type_defaults_to_any :
    (∀ (fuel : Nat) (st : schema.CState) (s : schema.Schema) (nm : String)
        (isRoot : Bool),
       s.ref = "" → s.allOf = [] →
       knownTypeOrEmpty (s.typ.headD "") = false →
       schema.convertSchema (fuel + 1) st s nm isRoot = .ok (ifaceInfo, st))
    ∧ (∀ (fuel : Nat) (st : schema.CState) (s : schema.Schema) (nm : String)
        (isRoot : Bool) (e : schema.CErr),
       refFree s = true →
       schema.convertSchema fuel st s nm isRoot = .error e → e = .fuel) := by
  constructor
  · intro fuel st s nm r h1 h2 h3
    simp only [knownTypeOrEmpty, Bool.or_eq_false_iff,
      decide_eq_false_iff_not] at h3
    obtain ⟨⟨⟨⟨⟨⟨⟨hne, hobj⟩, harr⟩, hstr⟩, hint⟩, hnum⟩, hbool⟩, hnull⟩ := h3
    simp only [List.headD_eq_head?] at hne hobj harr hstr hint hnum hbool hnull
    have ht : schema.effectiveType s = (s.typ.head?).getD "" := by
      simp [schema.effectiveType, hne, hnull]
    simp [schema.convertSchema, schema.engineS, schema.convertSchemaB,
      schema.dispatchType, ht, h1, h2, hne, hobj, harr, hstr, hint, hnum,
      hbool, hnull]
  · intro fuel st s nm r e hrf h
    exact engineS_refFree_safe fuel st s nm r e hrf h

/-- Witness for C8: the unrecognized type `"banana"` converts to
`interface{}` without error, and the zero-fuel converter's error on the
(ref-free) empty schema is the fuel marker. -/
theorem c8_unknown_type_witness :
    schema.convertSchema 1 (schema.initCState schema.emptySchema)
        (schema.Schema.ofType "banana") "X" false =
      .ok (ifaceInfo, schema.initCState schema.emptySchema)
    ∧ schema.CErr.fuel = schema.CErr.fuel :=
  ⟨c8_unknown_type_defaults_to_any.1 0 (schema.initCState schema.emptySchema)
      (schema.Schema.ofType "banana") "X" false rfl rfl (by rfl),
   c8_unknown_type_defaults_to_any.2 0 (schema.initCState schema.emptySchema)
      schema.emptySchema "X" false schema.CErr.fuel rfl rfl⟩

/-- C9: the singularization scenarios — `Items`→`Item` (plain `-s` strip),
`Addresses`→`Address` (irregular-forms table, capitalization preserved),
`Properties`→`Property` and `Cities`→`City` (`-ies`→`-y`),
`Series`→`Series` (invariant plural in the table) — together with the
table's `children`→`child` and the `-us`-guard keeping `Status`
unchanged. -/
theorem c9_singularization :
    singularize "Items" = "Item"
    ∧ singularize "Addresses" = "Address"
    ∧ singularize "Properties" = "Property"
    ∧ singularize "Cities" = "City"
    ∧ singularize "Series" = "Series"
    ∧ singularize "children" = "child"
    ∧ singularize "Status" = "Status" := by
  refine ⟨by rfl, by rfl, by rfl, by rfl, by rfl, by rfl, by rfl⟩

/-- A catalog with no two structurally equivalent StructDefs, equivalence
tested as `findOrAddStructDef` tests it (candidate against existing). -/
def CatalogDeduped (l : List StructDef) : Prop :=
  l.Pairwise fun x y => areStructDefsEquivalent y x = false

/-- The sample-document `{"a":{"x":1},"b":{"x":2}}` whose two nested objects
are structurally identical. -/
def twinNestedDoc : IR :=
  ⟨.obj [("a", .obj [("x", .num "1")]), ("b", .obj [("x", .num "2")])], false⟩

/-- The `RootA` TypeInfo reference produced for both twin fields. -/
def rootARef : TypeInfo := .mk .struct "RootA" true "RootA" none

set_option maxRecDepth 8192 in
/-- C3 (amended): in sample-based inference the invariant holds — every
struct is added through `findOrAddStructDef`, which scans the catalog and
redirects to the first equivalent struct, so a deduplicated catalog stays
deduplicated (first conjunct), and two structurally identical object values
in one document yield exactly one StructDef (second conjunct).
Schema-driven conversion, by contrast, deduplicates only repeated `$ref`s,
not structurally identical inline schemas. -/
theorem c3_sample_dedup :
    (∀ (st : AState) (cand : StructDef) (nm : String) (isRoot isArr : Bool),
       CatalogDeduped st.structs →
         CatalogDeduped (findOrAddStructDef st cand nm isRoot isArr).2.structs)
    ∧ analyze id 50 twinNestedDoc "Root" =
        (⟨[⟨"RootA", [⟨"x", "X", int64Info, "`json:\"x\"`", [], ""⟩], false⟩,
           ⟨"Root",
            [⟨"a", "A", rootARef, "`json:\"a,omitempty\"`", [], ""⟩,
             ⟨"b", "B", rootARef, "`json:\"b,omitempty\"`", [], ""⟩],
            true⟩], []⟩, none) := by
  refine ⟨?_, by rfl⟩
  · intro st cand nm isRoot isArr h
    unfold findOrAddStructDef
    cases hf : st.structs.find? (fun ex => areStructDefsEquivalent cand ex) with
    | some ex => simpa [CatalogDeduped] using h
    | none =>
        have hall : ∀ ex ∈ st.structs, areStructDefsEquivalent cand ex = false := by
          intro ex hex
          simpa using List.find?_eq_none.mp hf ex hex
        cases isRoot <;> cases isArr <;>
          · dsimp only [CatalogDeduped]
            rw [List.pairwise_append]
            refine ⟨h, by simp, ?_⟩
            intro x hx y hy
            rw [List.mem_singleton] at hy
            subst hy
            exact hall x hx

/-- Witness for the dedup-preservation conjunct of `c3_sample_dedup` on the
empty catalog. -/
theorem c3_sample_dedup_witness :
    CatalogDeduped
      (findOrAddStructDef initState ⟨"S", [], false⟩ "S" false false).2.structs :=
  c3_sample_dedup.1 initState ⟨"S", [], false⟩ "S" false false
    List.Pairwise.nil

/-- Totality of the lexicographic comparison. -/
theorem charListLe_total : ∀ x y : List Char,
    charListLe x y = true ∨ charListLe y x = true
  | [], _ => Or.inl rfl
  | _ :: _, [] => Or.inr rfl
  | a :: as, b :: bs => by
      rcases Nat.lt_trichotomy a.toNat b.toNat with h | h | h
      · exact Or.inl (by simp [charListLe, h])
      · rcases charListLe_total as bs with ih | ih
        · exact Or.inl (by simp [charListLe, h, Nat.lt_irrefl, ih])
        · exact Or.inr (by simp [charListLe, h, Nat.lt_irrefl, ih])
      · exact Or.inr (by simp [charListLe, h])

/-- Two characters with the same codepoint are equal. -/
theorem char_toNat_inj {a b : Char} (h : a.toNat = b.toNat) : a = b :=
  Char.ext (UInt32.ext h)

/-- Antisymmetry of the lexicographic comparison. -/
theorem charListLe_antisymm : ∀ x y : List Char,
    charListLe x y = true → charListLe y x = true → x = y
  | [], [], _, _ => rfl
  | [], _ :: _, _, h2 => by simp [charListLe] at h2
  | _ :: _, [], h1, _ => by simp [charListLe] at h1
  | a :: as, b :: bs, h1, h2 => by
      rcases Nat.lt_trichotomy a.toNat b.toNat with h | h | h
      · simp [charListLe, h, Nat.lt_asymm h] at h2
      · have hab : a = b := char_toNat_inj h
        subst hab
        simp only [charListLe, Nat.lt_irrefl, if_false] at h1 h2
        exact congrArg (a :: ·) (charListLe_antisymm as bs h1 h2)
      · simp [charListLe, h, Nat.lt_asymm h] at h1

/-- Transitivity of the lexicographic comparison. -/
theorem charListLe_trans : ∀ x y z : List Char,
    charListLe x y = true → charListLe y z = true → charListLe x z = true
  | [], _, _, _, _ => rfl
  | _ :: _, [], _, h1, _ => by simp [charListLe] at h1
  | _ :: _, _ :: _, [], _, h2 => by simp [charListLe] at h2
  | a :: as, b :: bs, c :: cs, h1, h2 => by
      rcases Nat.lt_trichotomy a.toNat b.toNat with hab | hab | hab
      · rcases Nat.lt_trichotomy b.toNat c.toNat with hbc | hbc | hbc
        · simp [charListLe, Nat.lt_trans hab hbc]
        · simp [charListLe, hbc ▸ hab]
        · simp [charListLe, hbc, Nat.lt_asymm hbc] at h2
      · rcases Nat.lt_trichotomy b.toNat c.toNat with hbc | hbc | hbc
        · simp [charListLe, hab.symm ▸ hbc]
        · have hac : a.toNat = c.toNat := hab.trans hbc
          simp only [charListLe, hab, Nat.lt_irrefl, if_false] at h1
          simp only [charListLe, hbc, Nat.lt_irrefl, if_false] at h2
          simp only [charListLe, hac, Nat.lt_irrefl, if_false]
          exact charListLe_trans as bs cs h1 h2
        · simp [charListLe, hbc, Nat.lt_asymm hbc] at h2
      · rcases Nat.lt_trichotomy b.toNat c.toNat with hbc | hbc | hbc
        · simp [charListLe, hab, Nat.lt_asymm hab] at h1
        · simp [charListLe, hab, Nat.lt_asymm hab] at h1
        · simp [charListLe, hab, Nat.lt_asymm hab] at h1

instance : IsTotal String strLeR :=
  ⟨fun a b => charListLe_total a.toList b.toList⟩

instance : IsTrans String strLeR :=
  ⟨fun a b c h1 h2 => charListLe_trans a.toList b.toList c.toList h1 h2⟩

instance : IsAntisymm String strLeR :=
  ⟨fun a b h1 h2 => by
    have h : a.toList = b.toList := charListLe_antisymm _ _ h1 h2
    cases a
    cases b
    exact congrArg String.mk h⟩

/-- The sort `sortStrings` permutes its input. -/
theorem sortStrings_perm (l : List String) : (sortStrings l).Perm l :=
  List.perm_insertionSort _ l

/-- The sort `sortStrings` sorts. -/
theorem sortStrings_sorted (l : List String) :
    List.Sorted strLeR (sortStrings l) :=
  List.sorted_insertionSort _ l

/-- Sorting is invariant under permutation of the input. -/
theorem sortStrings_eq_of_perm {l1 l2 : List String} (h : l1.Perm l2) :
    sortStrings l1 = sortStrings l2 :=
  List.eq_of_perm_of_sorted
    ((sortStrings_perm l1).trans (h.trans (sortStrings_perm l2).symm))
    (sortStrings_sorted l1) (sortStrings_sorted l2)

/-- On association lists with distinct keys, `lookup` is invariant under
permutation. -/
theorem lookup_eq_of_perm :
    ∀ {l1 l2 : List (String × Json)}, l1.Perm l2 →
      (l1.map Prod.fst).Nodup → ∀ k, l1.lookup k = l2.lookup k := by
  intro l1 l2 h
  induction h with
  | nil => intro _ _; rfl
  | cons x h' ih =>
      intro nd k
      rcases x with ⟨xk, xv⟩
      simp only [List.lookup]
      cases hk : k == xk
      · simpa [hk] using ih (by simpa using nd.of_cons) k
      · simp [hk]
  | swap x y l =>
      intro nd k
      rcases x with ⟨xk, xv⟩
      rcases y with ⟨yk, yv⟩
      have hne : yk ≠ xk := by
        simp only [List.map, List.nodup_cons, List.mem_cons] at nd
        exact fun hc => nd.1 (Or.inl hc)
      simp only [List.lookup]
      cases h1 : k == xk <;> cases h2 : k == yk <;> simp [h1, h2]
      exact absurd ((eq_of_beq h2).symm.trans (eq_of_beq h1)) hne
  | trans h1 h2 ih1 ih2 =>
      intro nd k
      exact (ih1 nd k).trans (ih2 (((h1.map Prod.fst).nodup_iff).mp nd) k)

/-- The `analyzeObject` field loop only reads the object through `lookup`,
so association lists with identical lookups are interchangeable. -/
theorem analyzeObjectFields_congr (node : NodeFun)
    (l1 l2 : List (String × Json)) (structName : String)
    (hlk : ∀ k, l1.lookup k = l2.lookup k) :
    ∀ (keys : List String) (st : AState),
      analyzeObjectFields node l1 structName keys st =
        analyzeObjectFields node l2 structName keys st := by
  intro keys
  induction keys with
  | nil => intro st; rfl
  | cons k rest ih =>
      intro st
      simp only [analyzeObjectFields, hlk k]
      cases node st ((l2.lookup k).getD Json.null) (structName ++ pascalCase k)
          false false with
      | error e => rfl
      | ok p => simp only [ih]

/-- C6 (amended): object traversal is independent of the order in which an
object's key/value pairs arrive — `analyzeObject` sorts the key set and
reads values by key, so analyzing any two permutations of the same
association list (with the distinct keys a Go map guarantees) produces
identical results, for every oracle, fuel, state and flags.  Full-run
determinism, by contrast, fails at `createMergedStructDef`'s unordered
`nestedObjectFields` map loop (see the counterexample). -/
theorem c6_object_order_invariance (ord : List String → List String)
    (fuel : Nat) (st : AState) (l1 l2 : List (String × Json))
    (suggestedName : String) (isRootNode isArrayElement : Bool)
    (hperm : l1.Perm l2) (hnd : (l1.map Prod.fst).Nodup) :
    analyzeNode ord fuel st (.obj l1) suggestedName isRootNode isArrayElement =
      analyzeNode ord fuel st (.obj l2) suggestedName isRootNode
        isArrayElement := by
  cases fuel with
  | zero => rfl
  | succ fuel =>
      have hkeys : sortStrings (l1.map Prod.fst) = sortStrings (l2.map Prod.fst) :=
        sortStrings_eq_of_perm (hperm.map Prod.fst)
      have hlk := lookup_eq_of_perm hperm hnd
      simp only [analyzeNode, engine, analyzeNodeB, analyzeObjectB]
      rw [hkeys, analyzeObjectFields_congr _ l1 l2 _ hlk]

/-- Witness for C6 (amended): swapping the two fields of a concrete object
does not change the analysis. -/
theorem c6_object_order_invariance_witness :
    analyzeNode id 5 initState
        (.obj [("a", .num "1"), ("b", .bool true)]) "X" true false =
      analyzeNode id 5 initState
        (.obj [("b", .bool true), ("a", .num "1")]) "X" true false :=
  c6_object_order_invariance id 5 initState
    [("a", Json.num "1"), ("b", Json.bool true)]
    [("b", Json.bool true), ("a", Json.num "1")]
    "X" true false
    (List.Perm.swap ("b", Json.bool true) ("a", Json.num "1") [])
    (by decide)

/-- C7: no partial catalogs — for every document and fuel budget, `Analyze`
either reports no error, or returns the empty `AnalysisResult` alongside
the error; likewise for the schema `Convert`. -/
theorem c7_no_partial_catalog :
    (∀ (ord : List String → List String) (fuel : Nat) (ir : IR)
        (name : String),
       (analyze ord fuel ir name).2 = none ∨
         (analyze ord fuel ir name).1 = ⟨[], []⟩)
    ∧ (∀ (fuel : Nat) (s : schema.Schema) (name : String),
        (schema.convert fuel s name).2 = none ∨
          (schema.convert fuel s name).1 = ⟨[], []⟩) := by
  constructor
  · intro ord fuel ir name
    rcases ir with ⟨root, ria⟩
    cases root
    case null => exact Or.inl rfl
    all_goals
      simp only [analyze]
      split
      · exact Or.inr rfl
      · split
        · exact Or.inl rfl
        · exact Or.inl rfl
  · intro fuel s name
    simp only [schema.convert]
    split
    · exact Or.inr rfl
    · exact Or.inl rfl

end GoTyper
